import Mathlib

/-!
Verification of the reporting core of an expense-tracker application.

The embedding models the two report generators, `getMonthlyReport` and
`getCategoryReport`, over an explicit list-based transaction store.  The
SQL queries issued by the handlers (drizzle-orm query builders over
PostgreSQL tables) are modelled as list filters, inner joins as flatMap
over matching rows, and GROUP BY as an insertion-ordered fold into an
association list, which matches both the SQL grouping semantics (one
output row per distinct key, summing amounts and counting rows) and the
JavaScript Map-based grouping used in the category report.

Monetary amounts are stored in the database as fixed-precision decimals
and summed; they are modelled as rationals.  SQL-side sums run on the
numeric column and are exact; the JavaScript-side accumulations of the
category report run on float64 values and are modelled here by exact
rational addition, which is faithful to order-preserving identities only.  Timestamps are modelled as
broken-down date-time structures ordered lexicographically, which is
order-isomorphic to the underlying millisecond timestamps and directly
supports the getFullYear / getMonth accessors used by the code.
-/

namespace ExpenseTracker

/-- The transaction_type enum of the schema: income, expense, credit, payment.
The pool_type enum has the same four constructors and is shared. -/
inductive TxType
  | income
  | expense
  | credit
  | payment
deriving DecidableEq, Repr

/-- The category_type enum of the schema: only income, expense, credit
(payments never carry a category). -/
inductive CatType
  | income
  | expense
  | credit
deriving DecidableEq, Repr

/-- A timestamp in broken-down form: the order on timestamps is the
lexicographic order on these fields, and getFullYear / getMonth+1 are the
year and month fields. -/
structure DateTime where
  year : Int
  month : Int
  day : Int
  hour : Int
  minute : Int
  second : Int
  ms : Int
deriving DecidableEq, Repr

/-- Comparison of two timestamps, lexicographic on the broken-down fields;
models `<=` on the underlying millisecond timestamps. -/
def DateTime.dle (a b : DateTime) : Bool :=
  if a.year ≠ b.year then decide (a.year < b.year)
  else if a.month ≠ b.month then decide (a.month < b.month)
  else if a.day ≠ b.day then decide (a.day < b.day)
  else if a.hour ≠ b.hour then decide (a.hour < b.hour)
  else if a.minute ≠ b.minute then decide (a.minute < b.minute)
  else if a.second ≠ b.second then decide (a.second < b.second)
  else decide (a.ms ≤ b.ms)

/-- A row of transactionsTable, restricted to the columns the report
handlers read (id, description, vendor_id, associated_person, created_at
and updated_at are never consulted by the reporting code). -/
structure Transaction where
  user_id : Int
  pool_id : Option Int
  type : TxType
  amount : ℚ
  category_id : Option Int
  transaction_date : DateTime
deriving DecidableEq, Repr

/-- A row of categoriesTable (columns read by the reports: id, name, type). -/
structure Category where
  id : Int
  user_id : Int
  name : String
  type : CatType
deriving DecidableEq, Repr

/-- A row of poolsTable (columns read by the reports: id, name, type). -/
structure Pool where
  id : Int
  user_id : Int
  name : String
  type : TxType
deriving DecidableEq, Repr

/-- GetMonthlyReportQuery: user_id, year and month, all plain z.number()
fields with no range constraint. -/
structure GetMonthlyReportQuery where
  user_id : Int
  year : Int
  month : Int
deriving DecidableEq, Repr

/-- The zod schema getMonthlyReportQuerySchema declares user_id, year and
month as unconstrained z.number() fields, so parsing never rejects a
numeric triple; in particular no range check is applied to month. -/
def getMonthlyReportQuerySchemaAccepts (_q : GetMonthlyReportQuery) : Bool :=
  true

/-- GetCategoryReportQuery: user_id plus optional start and end dates. -/
structure GetCategoryReportQuery where
  user_id : Int
  start_date : Option DateTime
  end_date : Option DateTime
deriving DecidableEq, Repr

/-- Gregorian leap-year rule, as implemented by the JavaScript Date object. -/
def isLeapYear (y : Int) : Bool :=
  (y % 4 == 0 && y % 100 != 0) || y % 400 == 0

/-- Number of days of the 1-based month m of year y, for m between 1 and 12. -/
def daysInMonth (y m : Int) : Int :=
  if m = 1 ∨ m = 3 ∨ m = 5 ∨ m = 7 ∨ m = 8 ∨ m = 10 ∨ m = 12 then 31
  else if m = 2 then (if isLeapYear y then 29 else 28)
  else 30

/-- The two-digit-year mapping of the Date constructor (MakeFullYear): a
year argument between 0 and 99 denotes 1900 + year, any other integer
denotes itself. -/
def mapYear (y : Int) : Int :=
  if 0 ≤ y ∧ y ≤ 99 then 1900 + y else y

/-- Start of the report window: `new Date(year, month - 1, 1)`.  The
JavaScript Date constructor first applies the two-digit-year mapping to
the year argument, then normalises an out-of-range 0-based month index mi
to year + floor(mi / 12) and month index mi mod 12; since the divisor 12
is positive, Int division and remainder (Euclidean) coincide with floor
division, matching the JavaScript rollover. -/
def monthStart (year month : Int) : DateTime :=
  ⟨mapYear year + (month - 1) / 12, (month - 1) % 12 + 1, 1, 0, 0, 0, 0⟩

/-- End of the report window: `new Date(year, month, 0, 23, 59, 59, 999)`.
Day 0 of the 0-based month index `month` normalises to the last day of the
previous month, i.e. the last day of the same normalised calendar month
the window starts in, with the same two-digit-year mapping applied to the
year argument. -/
def monthEnd (year month : Int) : DateTime :=
  ⟨mapYear year + (month - 1) / 12, (month - 1) % 12 + 1,
    daysInMonth (mapYear year + (month - 1) / 12) ((month - 1) % 12 + 1),
    23, 59, 59, 999⟩

/-- The base WHERE conditions of getMonthlyReport: user match and
transaction_date within [monthStart, monthEnd], both ends inclusive
(gte and lte). -/
def matchesMonthWindow (user_id year month : Int) (t : Transaction) : Bool :=
  t.user_id == user_id
    && (monthStart year month).dle t.transaction_date
    && t.transaction_date.dle (monthEnd year month)

/-- One aggregation bucket of a GROUP BY: sum(amount) and count(*). -/
structure Agg where
  totalAmount : ℚ
  count : Nat
deriving DecidableEq, Repr

/-- Fold one row with key k and amount a into an association list of
buckets: the existing bucket for k is updated in place, otherwise a fresh
bucket is appended (insertion order, as a JavaScript Map and as one row
per distinct key in SQL GROUP BY). -/
def bump {κ : Type} [DecidableEq κ] : List (κ × Agg) → κ → ℚ → List (κ × Agg)
  | [], k, a => [(k, ⟨a, 1⟩)]
  | (k', g) :: rest, k, a =>
      if k' = k then (k', ⟨g.totalAmount + a, g.count + 1⟩) :: rest
      else (k', g) :: bump rest k a

/-- GROUP BY over keyed rows: one bucket per distinct key, summing the
amounts and counting the rows. -/
def groupAgg {κ : Type} [DecidableEq κ] (rows : List (κ × ℚ)) : List (κ × Agg) :=
  rows.foldl (fun acc r => bump acc r.1 r.2) []

/-- Inner join of transactions with categoriesTable on
`transaction.category_id = category.id`; a NULL category_id matches no
category row, so uncategorised transactions drop out. -/
def joinCategories (ts : List Transaction) (cats : List Category) :
    List (Transaction × Category) :=
  ts.flatMap fun t =>
    match t.category_id with
    | none => []
    | some cid => (cats.filter fun c => c.id == cid).map fun c => (t, c)

/-- Inner join of transactions with poolsTable on
`transaction.pool_id = pool.id`. -/
def joinPools (ts : List Transaction) (pools : List Pool) :
    List (Transaction × Pool) :=
  ts.flatMap fun t =>
    match t.pool_id with
    | none => []
    | some pid => (pools.filter fun p => p.id == pid).map fun p => (t, p)

/-- An entry of categoryBreakdown: category id, name and type with the
aggregated amount and count. -/
structure CategoryBreakdownEntry where
  categoryId : Int
  categoryName : String
  type : CatType
  totalAmount : ℚ
  transactionCount : Nat
deriving DecidableEq, Repr

/-- An entry of poolBreakdown: pool id, name and type with the aggregated
amount and count. -/
structure PoolBreakdownEntry where
  poolId : Int
  poolName : String
  type : TxType
  totalAmount : ℚ
  transactionCount : Nat
deriving DecidableEq, Repr

/-- MonthlyReportData, the result shape of getMonthlyReport. -/
structure MonthlyReportData where
  totalIncome : ℚ
  totalExpenses : ℚ
  totalCredit : ℚ
  totalPayments : ℚ
  netAmount : ℚ
  transactionCount : Nat
  categoryBreakdown : List CategoryBreakdownEntry
  poolBreakdown : List PoolBreakdownEntry
deriving DecidableEq, Repr

/-- Sum of the amounts of the transactions of the given type.  The totals
query groups the window rows by type and sums amounts; each of the four
totals is initialised to 0 and overwritten by the sum of its group when
the group is present, which equals the sum over the (possibly empty) set
of rows of that type. -/
def totalOfType (ts : List Transaction) (ty : TxType) : ℚ :=
  ((ts.filter fun t => t.type == ty).map Transaction.amount).sum

/-- The category breakdown: window transactions joined with categories,
grouped by (category id, name, type), each group reporting sum(amount)
and count(*). -/
def categoryBreakdownOf (ts : List Transaction) (cats : List Category) :
    List CategoryBreakdownEntry :=
  (groupAgg ((joinCategories ts cats).map fun r =>
      ((r.2.id, r.2.name, r.2.type), r.1.amount))).map
    fun e => ⟨e.1.1, e.1.2.1, e.1.2.2, e.2.totalAmount, e.2.count⟩

/-- The pool breakdown: window transactions joined with pools, grouped by
(pool id, name, type), each group reporting sum(amount) and count(*). -/
def poolBreakdownOf (ts : List Transaction) (pools : List Pool) :
    List PoolBreakdownEntry :=
  (groupAgg ((joinPools ts pools).map fun r =>
      ((r.2.id, r.2.name, r.2.type), r.1.amount))).map
    fun e => ⟨e.1.1, e.1.2.1, e.1.2.2, e.2.totalAmount, e.2.count⟩

/-- getMonthlyReport over an explicit store: filter the transactions to
the user and the month window, total the amounts by type, derive
netAmount = totalIncome + totalPayments - totalExpenses - totalCredit,
count all window rows, and compute the two joined breakdowns over the
same window conditions. -/
def getMonthlyReport (txs : List Transaction) (cats : List Category)
    (pools : List Pool) (q : GetMonthlyReportQuery) : MonthlyReportData :=
  let ts := txs.filter (matchesMonthWindow q.user_id q.year q.month)
  let totalIncome := totalOfType ts .income
  let totalExpenses := totalOfType ts .expense
  let totalCredit := totalOfType ts .credit
  let totalPayments := totalOfType ts .payment
  { totalIncome := totalIncome
    totalExpenses := totalExpenses
    totalCredit := totalCredit
    totalPayments := totalPayments
    netAmount := totalIncome + totalPayments - totalExpenses - totalCredit
    transactionCount := ts.length
    categoryBreakdown := categoryBreakdownOf ts cats
    poolBreakdown := poolBreakdownOf ts pools }

/-- The WHERE conditions of getCategoryReport: user match, transaction
type restricted to income, expense or credit via inArray, category_id not
NULL, and gte / lte date bounds that are added only when the optional
start_date / end_date are supplied. -/
def matchesCategoryFilter (q : GetCategoryReportQuery) (t : Transaction) : Bool :=
  t.user_id == q.user_id
    && (t.type == .income || t.type == .expense || t.type == .credit)
    && t.category_id.isSome
    && (match q.start_date with
        | none => true
        | some s => s.dle t.transaction_date)
    && (match q.end_date with
        | none => true
        | some e => t.transaction_date.dle e)

/-- An entry of a monthlyBreakdown: one (year, month) bucket of a
category, with getFullYear and getMonth + 1 of the transaction dates. -/
structure MonthlyBreakdownEntry where
  year : Int
  month : Int
  totalAmount : ℚ
  transactionCount : Nat
deriving DecidableEq, Repr

/-- An entry of the categories array of a category report. -/
structure CategoryReportEntry where
  categoryId : Int
  categoryName : String
  type : CatType
  totalAmount : ℚ
  transactionCount : Nat
  averageAmount : ℚ
  monthlyBreakdown : List MonthlyBreakdownEntry
deriving DecidableEq, Repr

/-- The totalsByType record of a category report. -/
structure TotalsByType where
  income : ℚ
  expense : ℚ
  credit : ℚ
deriving DecidableEq, Repr

/-- CategoryReportData, the result shape of getCategoryReport. -/
structure CategoryReportData where
  categories : List CategoryReportEntry
  totalsByType : TotalsByType
deriving DecidableEq, Repr

/-- One bucket of the categoryMap: category metadata plus the (amount,
transaction_date) pairs of its rows, in row order. -/
structure CatGroup where
  categoryId : Int
  categoryName : String
  type : CatType
  transactions : List (ℚ × DateTime)
deriving DecidableEq, Repr

/-- Fold one joined row into the categoryMap buckets: rows are grouped by
category id, the first row of a category creating its bucket (recording
name and type) and every row appending its amount and date. -/
def pushRow : List CatGroup → Transaction × Category → List CatGroup
  | [], r => [⟨r.2.id, r.2.name, r.2.type, [(r.1.amount, r.1.transaction_date)]⟩]
  | g :: rest, r =>
      if g.categoryId = r.2.id then
        ⟨g.categoryId, g.categoryName, g.type,
          g.transactions ++ [(r.1.amount, r.1.transaction_date)]⟩ :: rest
      else g :: pushRow rest r

/-- The categoryMap of getCategoryReport: joined rows grouped by category
id in insertion order. -/
def groupByCategory (rows : List (Transaction × Category)) : List CatGroup :=
  rows.foldl pushRow []

/-- The sort comparator of the monthly breakdown, as a total order: the
code sorts by `a.year - b.year` and then `a.month - b.month`, ascending. -/
def monthlyLe (a b : MonthlyBreakdownEntry) : Bool :=
  if a.year ≠ b.year then decide (a.year < b.year) else decide (a.month ≤ b.month)

/-- The monthlyBreakdown of one category: its transactions grouped by the
(getFullYear, getMonth + 1) key of their dates — the string key
`year-month` of the code is injective in those two numbers — then sorted
ascending by year and then month with the comparator monthlyLe (the sort
call of the code returns some sorted permutation; insertion sort is the
structurally recursive realisation of that contract). -/
def monthlyBreakdownOf (txs : List (ℚ × DateTime)) : List MonthlyBreakdownEntry :=
  List.insertionSort (fun a b => monthlyLe a b = true)
    ((groupAgg (txs.map fun p => ((p.2.year, p.2.month), p.1))).map
      fun e => MonthlyBreakdownEntry.mk e.1.1 e.1.2 e.2.totalAmount e.2.count)

/-- Build one categories entry from a categoryMap bucket: totalAmount is
the sum of the amounts, transactionCount the number of rows,
averageAmount their quotient guarded to 0 on an empty bucket, and
monthlyBreakdown the sorted per-month grouping.  The code accumulates
these amounts with sequential float64 addition over parseFloat values;
the model uses exact rational addition, which agrees with the code on
identities that preserve the order of the additions but not on ones that
regroup them. -/
def entryOfGroup (g : CatGroup) : CategoryReportEntry :=
  let totalAmount := (g.transactions.map Prod.fst).sum
  let transactionCount := g.transactions.length
  let averageAmount : ℚ :=
    if transactionCount > 0 then totalAmount / transactionCount else 0
  ⟨g.categoryId, g.categoryName, g.type, totalAmount, transactionCount,
    averageAmount, monthlyBreakdownOf g.transactions⟩

/-- Fold one categories entry into totalsByType, bucketed by the category
type. -/
def addTotal (t : TotalsByType) (e : CategoryReportEntry) : TotalsByType :=
  match e.type with
  | .income => { t with income := t.income + e.totalAmount }
  | .expense => { t with expense := t.expense + e.totalAmount }
  | .credit => { t with credit := t.credit + e.totalAmount }

/-- getCategoryReport over an explicit store: inner join with categories,
filter by user, type, non-NULL category_id and the optional date bounds
(the join and the row filter commute, as the filter reads only transaction
columns), group rows by category, build the per-category entries and
accumulate totalsByType.  The ORDER BY over the category name only
permutes rows between store order and output order and is left at store
order, since the collation is store specific. -/
def getCategoryReport (txs : List Transaction) (cats : List Category)
    (q : GetCategoryReportQuery) : CategoryReportData :=
  let rows := joinCategories (txs.filter (matchesCategoryFilter q)) cats
  let categories := (groupByCategory rows).map entryOfGroup
  ⟨categories, categories.foldl addTotal ⟨0, 0, 0⟩⟩

/-- The calendar-month window of the monthly-report contract, written
directly from the spec words: transactions of the user whose date lies
between year-month-01T00:00:00 and the last day of that month at
23:59:59.999, inclusive on both ends. -/
def inCalendarMonth (user_id year month : Int) (t : Transaction) : Bool :=
  t.user_id == user_id
    && (DateTime.mk year month 1 0 0 0 0).dle t.transaction_date
    && t.transaction_date.dle ⟨year, month, daysInMonth year month, 23, 59, 59, 999⟩

/-- The transaction filter of the category-report contract, written
directly from the spec words: transactions of the user restricted to the
types income, expense and credit, with a non-null category_id, whose date
is at least start_date when given and at most end_date when given. -/
def categoryReportSpecFilter (q : GetCategoryReportQuery) (t : Transaction) : Bool :=
  t.user_id == q.user_id
    && (t.type == .income || t.type == .expense || t.type == .credit)
    && t.category_id.isSome
    && (match q.start_date with
        | none => true
        | some s => s.dle t.transaction_date)
    && (match q.end_date with
        | none => true
        | some e => t.transaction_date.dle e)

/- Concrete sample rows used to instantiate theorems with hypotheses. -/

/-- Sample category of type income. -/
def wCat1 : Category := ⟨1, 1, "Salary", .income⟩

/-- Sample category of type expense. -/
def wCat2 : Category := ⟨2, 1, "Food", .expense⟩

/-- Sample pool of type income. -/
def wPool1 : Pool := ⟨1, 1, "Main", .income⟩

/-- Sample timestamp in January 2024. -/
def wDate (day : Int) : DateTime := ⟨2024, 1, day, 12, 0, 0, 0⟩

/-- Sample income transaction of user 1, categorised and pooled. -/
def wIncome : Transaction := ⟨1, some 1, .income, 100, some 1, wDate 15⟩

/-- Sample expense transaction of user 1, categorised. -/
def wExpense : Transaction := ⟨1, none, .expense, 40, some 2, wDate 10⟩

/-- Sample payment transaction of user 1 with a category id attached. -/
def wPayCat : Transaction := ⟨1, none, .payment, 5, some 1, wDate 12⟩

/-- Sample income transaction of a different user. -/
def wOther : Transaction := ⟨2, none, .income, 7, none, wDate 3⟩

/-- Sample income transaction of user 1 dated January 1950, the month the
Date constructor selects for the year argument 50. -/
def wTx1950 : Transaction := ⟨1, none, .income, 100, none, ⟨1950, 1, 15, 12, 0, 0, 0⟩⟩

/-- Sample income transaction of user 1 dated January 2000, the month the
Date constructor selects for the year argument 99 with month 13. -/
def wTx2000 : Transaction := ⟨1, none, .income, 100, none, ⟨2000, 1, 15, 12, 0, 0, 0⟩⟩

/-! Theorems. -/

/-- C1: in every generated monthly report, netAmount equals
totalIncome + totalPayments - totalExpenses - totalCredit exactly;
payments enter the net with the opposite sign of expenses and credit. -/
theorem netAmount_sign_convention (txs : List Transaction) (cats : List Category)
    (pools : List Pool) (q : GetMonthlyReportQuery) :
    (getMonthlyReport txs cats pools q).netAmount =
      (getMonthlyReport txs cats pools q).totalIncome
        + (getMonthlyReport txs cats pools q).totalPayments
        - (getMonthlyReport txs cats pools q).totalExpenses
        - (getMonthlyReport txs cats pools q).totalCredit := rfl

/-- Restricting the store to the rows matching the month-window
conditions leaves the monthly report unchanged: the report reads nothing
outside that subset. -/
theorem getMonthlyReport_filter (txs : List Transaction) (cats : List Category)
    (pools : List Pool) (uid year month : Int) :
    getMonthlyReport (txs.filter (matchesMonthWindow uid year month)) cats pools
        ⟨uid, year, month⟩
      = getMonthlyReport txs cats pools ⟨uid, year, month⟩ := by
  simp [getMonthlyReport, List.filter_filter]

/-- For a month between 1 and 12 the normalised window start is the first
day of that month of the mapped year. -/
theorem monthStart_in_range (year month : Int) (h1 : 1 ≤ month) (h2 : month ≤ 12) :
    monthStart year month = ⟨mapYear year, month, 1, 0, 0, 0, 0⟩ := by
  have hy : (month - 1) / 12 = 0 := by omega
  have hm : (month - 1) % 12 + 1 = month := by omega
  simp [monthStart, hy, hm]

/-- For a month between 1 and 12 the normalised window end is the last
day of that month of the mapped year, at 23:59:59.999. -/
theorem monthEnd_in_range (year month : Int) (h1 : 1 ≤ month) (h2 : month ≤ 12) :
    monthEnd year month
      = ⟨mapYear year, month, daysInMonth (mapYear year) month, 23, 59, 59, 999⟩ := by
  have hy : (month - 1) / 12 = 0 := by omega
  have hm : (month - 1) % 12 + 1 = month := by omega
  simp [monthEnd, hy, hm]

/-- Counterexample to C3 as stated: for the year argument 50 the program
places the window in January 1950 (two-digit-year mapping of the Date
constructor), not in January of the literal year 50, so restricting the
store to the literal calendar month changes the report. -/
theorem getMonthlyReport_calendar_window_cex :
    getMonthlyReport [wTx1950] [] [] ⟨1, 50, 1⟩ ≠
      getMonthlyReport ([wTx1950].filter (inCalendarMonth 1 50 1)) [] []
        ⟨1, 50, 1⟩ := fun h =>
  absurd (congrArg MonthlyReportData.transactionCount h) (by decide)

/-- C3 (amended): for a month between 1 and 12, the monthly report
aggregates exactly the transactions of the requested user whose date lies
within the calendar month of the effective year — 1900 + year when the
year argument is between 0 and 99, the year itself otherwise — from its
day 01T00:00:00 to its last day at 23:59:59.999 inclusive: restricting
the store to exactly that subset reproduces the report, so every other
transaction contributes to no total and no breakdown. -/
theorem getMonthlyReport_calendar_window (txs : List Transaction)
    (cats : List Category) (pools : List Pool) (uid year month : Int)
    (h1 : 1 ≤ month) (h2 : month ≤ 12) :
    getMonthlyReport txs cats pools ⟨uid, year, month⟩ =
      getMonthlyReport (txs.filter (inCalendarMonth uid (mapYear year) month))
        cats pools ⟨uid, year, month⟩ := by
  have hw : matchesMonthWindow uid year month
      = inCalendarMonth uid (mapYear year) month := by
    funext t
    simp [matchesMonthWindow, inCalendarMonth,
      monthStart_in_range year month h1 h2, monthEnd_in_range year month h1 h2]
  rw [← getMonthlyReport_filter txs cats pools uid year month, hw]

/-- Witness for C3 at a concrete store and query. -/
theorem getMonthlyReport_calendar_window_witness :
    (1 : Int) ≤ 1 ∧ (1 : Int) ≤ 12 ∧
      getMonthlyReport [wIncome, wOther] [wCat1] [wPool1] ⟨1, 2024, 1⟩ =
        getMonthlyReport
          ([wIncome, wOther].filter (inCalendarMonth 1 (mapYear 2024) 1))
          [wCat1] [wPool1] ⟨1, 2024, 1⟩ :=
  ⟨by decide, by decide,
    getMonthlyReport_calendar_window [wIncome, wOther] [wCat1] [wPool1] 1 2024 1
      (by decide) (by decide)⟩

/-- Counterexample to C8 as stated: at the year argument 99 the rollover
equality fails, because month 13 of year 99 is January 2000 (the mapped
year 1999 plus the month rollover) while month 1 of year 100 is January
of the literal year 100. -/
theorem getMonthlyReport_month13_rollover_cex :
    getMonthlyReport [wTx2000] [] [] ⟨1, 99, 13⟩ ≠
      getMonthlyReport [wTx2000] [] [] ⟨1, 100, 1⟩ := fun h =>
  absurd (congrArg MonthlyReportData.transactionCount h) (by decide)

/-- C8 (amended): a month value outside 1 to 12 raises no validation
error — the query schema accepts any numeric month — and the date
arithmetic rolls the month over: for every year other than -1 and 99,
where the two-digit-year mapping of the Date constructor breaks the
adjacency of consecutive year arguments, the report for month 13 of a
year is the very report for month 1 of the following year; the
computation is total and never crashes. -/
theorem getMonthlyReport_month13_rollover (txs : List Transaction)
    (cats : List Category) (pools : List Pool) (uid year : Int)
    (hy1 : year ≠ -1) (hy2 : year ≠ 99) :
    getMonthlyReportQuerySchemaAccepts ⟨uid, year, 13⟩ = true ∧
      getMonthlyReport txs cats pools ⟨uid, year, 13⟩ =
        getMonthlyReport txs cats pools ⟨uid, year + 1, 1⟩ := by
  refine ⟨rfl, ?_⟩
  have hmap : mapYear year + 1 = mapYear (year + 1) := by
    simp only [mapYear]
    split_ifs <;> omega
  have hy : mapYear year + ((13 : Int) - 1) / 12
      = mapYear (year + 1) + ((1 : Int) - 1) / 12 := by omega
  have hm : ((13 : Int) - 1) % 12 + 1 = ((1 : Int) - 1) % 12 + 1 := by omega
  have hs : monthStart year 13 = monthStart (year + 1) 1 := by
    simp only [monthStart, hy, hm]
  have he : monthEnd year 13 = monthEnd (year + 1) 1 := by
    simp only [monthEnd, hy, hm]
  have hw : matchesMonthWindow uid year 13 = matchesMonthWindow uid (year + 1) 1 := by
    funext t
    simp [matchesMonthWindow, hs, he]
  simp [getMonthlyReport, hw]

/-- Witness for C8 at a concrete store and year. -/
theorem getMonthlyReport_month13_rollover_witness :
    (2024 : Int) ≠ -1 ∧ (2024 : Int) ≠ 99 ∧
      (getMonthlyReportQuerySchemaAccepts ⟨1, 2024, 13⟩ = true ∧
        getMonthlyReport [wIncome, wOther] [wCat1] [wPool1] ⟨1, 2024, 13⟩ =
          getMonthlyReport [wIncome, wOther] [wCat1] [wPool1] ⟨1, 2025, 1⟩) :=
  ⟨by decide, by decide,
    getMonthlyReport_month13_rollover [wIncome, wOther] [wCat1] [wPool1] 1 2024
      (by decide) (by decide)⟩

/-- C4: when no transaction of the store matches the user and the month
window, the monthly report succeeds and returns every total equal to 0, a
zero transaction count and empty (not null) breakdown arrays. -/
theorem getMonthlyReport_empty_month (txs : List Transaction)
    (cats : List Category) (pools : List Pool) (uid year month : Int)
    (h : ∀ t ∈ txs, matchesMonthWindow uid year month t = false) :
    getMonthlyReport txs cats pools ⟨uid, year, month⟩ =
      { totalIncome := 0, totalExpenses := 0, totalCredit := 0, totalPayments := 0,
        netAmount := 0, transactionCount := 0,
        categoryBreakdown := [], poolBreakdown := [] } := by
  have hf : txs.filter (matchesMonthWindow uid year month) = [] := by
    rw [List.filter_eq_nil_iff]
    intro t ht
    simp [h t ht]
  simp [getMonthlyReport, hf, totalOfType, categoryBreakdownOf, poolBreakdownOf,
    joinCategories, joinPools, groupAgg]

/-- Witness for C4: a store whose single transaction belongs to another
user matches nothing in the window. -/
theorem getMonthlyReport_empty_month_witness :
    (∀ t ∈ [wOther], matchesMonthWindow 1 2024 1 t = false) ∧
      getMonthlyReport [wOther] [wCat1] [wPool1] ⟨1, 2024, 1⟩ =
        { totalIncome := 0, totalExpenses := 0, totalCredit := 0, totalPayments := 0,
          netAmount := 0, transactionCount := 0,
          categoryBreakdown := [], poolBreakdown := [] } :=
  ⟨by decide,
    getMonthlyReport_empty_month [wOther] [wCat1] [wPool1] 1 2024 1 (by decide)⟩

/-- The WHERE conditions of the code and the filter worded by the spec
are one and the same predicate. -/
theorem categoryReportSpecFilter_eq_matchesCategoryFilter :
    categoryReportSpecFilter = matchesCategoryFilter := rfl

/-- A list whose mapped keys are distinct has at most one element with a
given key. -/
theorem length_filter_key_le_one {α : Type} (key : α → Int) (l : List α)
    (cid : Int) (hnd : (l.map key).Nodup) :
    (l.filter fun x => key x == cid).length ≤ 1 := by
  induction l with
  | nil => simp
  | cons x l ih =>
      simp only [List.map_cons, List.nodup_cons] at hnd
      by_cases h : key x = cid
      · have hrest : l.filter (fun y => key y == cid) = [] := by
          rw [List.filter_eq_nil_iff]
          intro y hy
          simp only [beq_iff_eq]
          intro hyc
          exact hnd.1 (h ▸ hyc ▸ List.mem_map_of_mem key hy)
        simp [List.filter_cons, h, hrest]
      · simpa [List.filter_cons, h] using ih hnd.2

/-- A list whose mapped keys are distinct has exactly one element with a
key that does occur. -/
theorem length_filter_key_eq_one {α : Type} (key : α → Int) (l : List α)
    (cid : Int) (hnd : (l.map key).Nodup) (hex : ∃ x ∈ l, key x = cid) :
    (l.filter fun x => key x == cid).length = 1 := by
  have hle := length_filter_key_le_one key l cid hnd
  obtain ⟨x, hx, hkey⟩ := hex
  have hmem : x ∈ l.filter fun y => key y == cid := by
    simp [List.mem_filter, hx, hkey]
  have hpos : 0 < (l.filter fun y => key y == cid).length :=
    List.length_pos_of_mem hmem
  omega

/-- With distinct category ids, the inner join yields at most one row per
transaction. -/
theorem joinCategories_length_le (ts : List Transaction) (cats : List Category)
    (hnd : (cats.map Category.id).Nodup) :
    (joinCategories ts cats).length ≤ ts.length := by
  induction ts with
  | nil => simp [joinCategories]
  | cons t ts ih =>
      simp only [joinCategories, List.flatMap_cons, List.length_append,
        List.length_cons] at ih ⊢
      cases h : t.category_id with
      | none =>
          simp only [h, List.length_nil]
          omega
      | some cid =>
          have hone := length_filter_key_le_one Category.id cats cid hnd
          simp only [h, List.length_map]
          omega

/-- With distinct pool ids, the inner join yields at most one row per
transaction. -/
theorem joinPools_length_le (ts : List Transaction) (pools : List Pool)
    (hnd : (pools.map Pool.id).Nodup) :
    (joinPools ts pools).length ≤ ts.length := by
  induction ts with
  | nil => simp [joinPools]
  | cons t ts ih =>
      simp only [joinPools, List.flatMap_cons, List.length_append,
        List.length_cons] at ih ⊢
      cases h : t.pool_id with
      | none =>
          simp only [h, List.length_nil]
          omega
      | some pid =>
          have hone := length_filter_key_le_one Pool.id pools pid hnd
          simp only [h, List.length_map]
          omega

/-- With distinct category ids and every referenced category present, the
inner join yields exactly one row per transaction carrying a category. -/
theorem joinCategories_length_eq (ts : List Transaction) (cats : List Category)
    (hnd : (cats.map Category.id).Nodup)
    (h : ∀ t ∈ ts, ∃ cid, t.category_id = some cid ∧ ∃ c ∈ cats, c.id = cid) :
    (joinCategories ts cats).length = ts.length := by
  induction ts with
  | nil => simp [joinCategories]
  | cons t ts ih =>
      obtain ⟨cid, hcid, hex⟩ := h t (List.mem_cons_self t ts)
      have hrest := ih fun s hs => h s (List.mem_cons_of_mem t hs)
      simp only [joinCategories, List.flatMap_cons, List.length_append,
        List.length_cons] at hrest ⊢
      rw [hcid]
      simp only [List.length_map]
      rw [length_filter_key_eq_one Category.id cats cid hnd hex, hrest]
      omega

/-- Folding one row into the categoryMap adds exactly one transaction to
the buckets. -/
theorem pushRow_sum_len (l : List CatGroup) (r : Transaction × Category) :
    ((pushRow l r).map fun g => g.transactions.length).sum
      = ((l.map fun g => g.transactions.length).sum) + 1 := by
  induction l with
  | nil => simp [pushRow]
  | cons g rest ih =>
      by_cases h : g.categoryId = r.2.id
      · simp [pushRow, h]
        omega
      · simp [pushRow, h, ih]
        omega

/-- The categoryMap buckets partition the joined rows: the bucket sizes
add up to the number of rows. -/
theorem groupByCategory_sum_len (rows : List (Transaction × Category)) :
    ((groupByCategory rows).map fun g => g.transactions.length).sum = rows.length := by
  suffices h : ∀ acc : List CatGroup,
      ((rows.foldl pushRow acc).map fun g => g.transactions.length).sum
        = ((acc.map fun g => g.transactions.length).sum) + rows.length by
    simpa [groupByCategory] using h []
  induction rows with
  | nil => intro acc; simp
  | cons r rows ih =>
      intro acc
      rw [List.foldl_cons, ih (pushRow acc r), pushRow_sum_len]
      simp only [List.length_cons]
      omega

/-- Projection of one categories entry: the transaction count of the
entry is the size of its bucket. -/
theorem entryOfGroup_transactionCount (g : CatGroup) :
    (entryOfGroup g).transactionCount = g.transactions.length := rfl

/-- C2: the category report aggregates exactly the transactions of the
requested user whose type is income, expense or credit, whose category id
is non-null and whose date lies inside the optional inclusive bounds:
restricting the store to exactly that spec-worded subset reproduces the
report, a payment-type transaction never changes the output even when a
category id is attached to it, and — with the referential integrity of
the schema (distinct category ids, every referenced id present) — every
selected transaction is counted exactly once. -/
theorem getCategoryReport_exact_selection (txs : List Transaction)
    (cats : List Category) (q : GetCategoryReportQuery) (t : Transaction)
    (hpay : t.type = .payment)
    (hfk : ∀ s ∈ txs, ∀ cid, s.category_id = some cid → ∃ c ∈ cats, c.id = cid)
    (hnd : (cats.map Category.id).Nodup) :
    getCategoryReport txs cats q =
        getCategoryReport (txs.filter (categoryReportSpecFilter q)) cats q
      ∧ getCategoryReport (t :: txs) cats q = getCategoryReport txs cats q
      ∧ ((getCategoryReport txs cats q).categories.map
            fun e => e.transactionCount).sum
          = (txs.filter (categoryReportSpecFilter q)).length := by
  rw [categoryReportSpecFilter_eq_matchesCategoryFilter]
  refine ⟨?_, ?_, ?_⟩
  · simp [getCategoryReport, List.filter_filter]
  · have e1 : (TxType.payment == TxType.income) = false := rfl
    have e2 : (TxType.payment == TxType.expense) = false := rfl
    have e3 : (TxType.payment == TxType.credit) = false := rfl
    have hft : matchesCategoryFilter q t = false := by
      simp [matchesCategoryFilter, hpay, e1, e2, e3]
    simp [getCategoryReport, List.filter_cons, hft]
  · have hjoin : (joinCategories (txs.filter (matchesCategoryFilter q)) cats).length
        = (txs.filter (matchesCategoryFilter q)).length := by
      refine joinCategories_length_eq _ cats hnd ?_
      intro s hs
      rw [List.mem_filter] at hs
      obtain ⟨hmem, hflt⟩ := hs
      have hsome : s.category_id.isSome := by
        simp only [matchesCategoryFilter, Bool.and_eq_true] at hflt
        exact hflt.1.1.2
      obtain ⟨cid, hcid⟩ := Option.isSome_iff_exists.mp hsome
      exact ⟨cid, hcid, hfk s hmem cid hcid⟩
    calc ((getCategoryReport txs cats q).categories.map
            fun e => e.transactionCount).sum
        = ((groupByCategory (joinCategories
              (txs.filter (matchesCategoryFilter q)) cats)).map
            fun g => g.transactions.length).sum := by
          simp [getCategoryReport, List.map_map, Function.comp_def,
            entryOfGroup_transactionCount]
      _ = (joinCategories (txs.filter (matchesCategoryFilter q)) cats).length :=
          groupByCategory_sum_len _
      _ = (txs.filter (matchesCategoryFilter q)).length := hjoin

/-- Witness for C2 at a concrete store, category table and query. -/
theorem getCategoryReport_exact_selection_witness :
    Transaction.type wPayCat = .payment ∧
    (∀ s ∈ [wIncome, wExpense, wOther], ∀ cid, s.category_id = some cid →
        ∃ c ∈ [wCat1, wCat2], c.id = cid) ∧
    (([wCat1, wCat2].map Category.id).Nodup) ∧
    (getCategoryReport [wIncome, wExpense, wOther] [wCat1, wCat2] ⟨1, none, none⟩ =
        getCategoryReport ([wIncome, wExpense, wOther].filter
          (categoryReportSpecFilter ⟨1, none, none⟩)) [wCat1, wCat2] ⟨1, none, none⟩
      ∧ getCategoryReport (wPayCat :: [wIncome, wExpense, wOther]) [wCat1, wCat2]
          ⟨1, none, none⟩
          = getCategoryReport [wIncome, wExpense, wOther] [wCat1, wCat2] ⟨1, none, none⟩
      ∧ ((getCategoryReport [wIncome, wExpense, wOther] [wCat1, wCat2]
            ⟨1, none, none⟩).categories.map fun e => e.transactionCount).sum
          = ([wIncome, wExpense, wOther].filter
              (categoryReportSpecFilter ⟨1, none, none⟩)).length) :=
  ⟨rfl,
    by
      intro s hs cid hcid
      fin_cases hs <;>
        simp_all [wIncome, wExpense, wOther, wCat1, wCat2],
    by decide,
    getCategoryReport_exact_selection [wIncome, wExpense, wOther] [wCat1, wCat2]
      ⟨1, none, none⟩ wPayCat rfl
      (by
        intro s hs cid hcid
        fin_cases hs <;>
          simp_all [wIncome, wExpense, wOther, wCat1, wCat2])
      (by decide)⟩

/-- The categoryBreakdown of a monthly report is the grouped join of the
window transactions with the category table. -/
theorem getMonthlyReport_categoryBreakdown (txs : List Transaction)
    (cats : List Category) (pools : List Pool) (q : GetMonthlyReportQuery) :
    (getMonthlyReport txs cats pools q).categoryBreakdown
      = categoryBreakdownOf
          (txs.filter (matchesMonthWindow q.user_id q.year q.month)) cats := rfl

/-- The poolBreakdown of a monthly report is the grouped join of the
window transactions with the pool table. -/
theorem getMonthlyReport_poolBreakdown (txs : List Transaction)
    (cats : List Category) (pools : List Pool) (q : GetMonthlyReportQuery) :
    (getMonthlyReport txs cats pools q).poolBreakdown
      = poolBreakdownOf
          (txs.filter (matchesMonthWindow q.user_id q.year q.month)) pools := rfl

/-- The transactionCount of a monthly report is the number of window
transactions. -/
theorem getMonthlyReport_transactionCount (txs : List Transaction)
    (cats : List Category) (pools : List Pool) (q : GetMonthlyReportQuery) :
    (getMonthlyReport txs cats pools q).transactionCount
      = (txs.filter (matchesMonthWindow q.user_id q.year q.month)).length := rfl

/-- The categories array of a category report is the grouped, filtered
join of the store with the category table. -/
theorem getCategoryReport_categories (txs : List Transaction)
    (cats : List Category) (q : GetCategoryReportQuery) :
    (getCategoryReport txs cats q).categories
      = (groupByCategory (joinCategories
          (txs.filter (matchesCategoryFilter q)) cats)).map entryOfGroup := rfl

/-- The totalsByType of a category report folds addTotal over its
categories array starting from zero. -/
theorem getCategoryReport_totalsByType (txs : List Transaction)
    (cats : List Category) (q : GetCategoryReportQuery) :
    (getCategoryReport txs cats q).totalsByType
      = (getCategoryReport txs cats q).categories.foldl addTotal ⟨0, 0, 0⟩ := rfl

/-- Folding one keyed row into the buckets grows the total row count by
one. -/
theorem bump_sum_count {κ : Type} [DecidableEq κ] (l : List (κ × Agg)) (k : κ)
    (a : ℚ) :
    ((bump l k a).map fun e => e.2.count).sum
      = ((l.map fun e => e.2.count).sum) + 1 := by
  induction l with
  | nil => simp [bump]
  | cons hd tl ih =>
      obtain ⟨k', g⟩ := hd
      by_cases h : k' = k
      · simp [bump, h]
        omega
      · simp [bump, h, ih]
        omega

/-- The bucket counts of a GROUP BY add up to the number of rows. -/
theorem groupAgg_sum_count {κ : Type} [DecidableEq κ] (rows : List (κ × ℚ)) :
    ((groupAgg rows).map fun e => e.2.count).sum = rows.length := by
  suffices h : ∀ acc : List (κ × Agg),
      ((rows.foldl (fun acc r => bump acc r.1 r.2) acc).map fun e => e.2.count).sum
        = ((acc.map fun e => e.2.count).sum) + rows.length by
    simpa [groupAgg] using h []
  induction rows with
  | nil => intro acc; simp
  | cons r rows ih =>
      intro acc
      rw [List.foldl_cons, ih (bump acc r.1 r.2), bump_sum_count]
      simp only [List.length_cons]
      omega

/-- The transaction counts reported by categoryBreakdownOf add up to the
number of joined rows. -/
theorem categoryBreakdownOf_sum_counts (ts : List Transaction)
    (cats : List Category) :
    ((categoryBreakdownOf ts cats).map fun e => e.transactionCount).sum
      = (joinCategories ts cats).length := by
  calc ((categoryBreakdownOf ts cats).map fun e => e.transactionCount).sum
      = ((groupAgg ((joinCategories ts cats).map fun r =>
            ((r.2.id, r.2.name, r.2.type), r.1.amount))).map
          fun e => e.2.count).sum := by
        simp [categoryBreakdownOf, List.map_map, Function.comp_def]
    _ = ((joinCategories ts cats).map fun r =>
          ((r.2.id, r.2.name, r.2.type), r.1.amount)).length := groupAgg_sum_count _
    _ = (joinCategories ts cats).length := List.length_map _ _

/-- The transaction counts reported by poolBreakdownOf add up to the
number of joined rows. -/
theorem poolBreakdownOf_sum_counts (ts : List Transaction) (pools : List Pool) :
    ((poolBreakdownOf ts pools).map fun e => e.transactionCount).sum
      = (joinPools ts pools).length := by
  calc ((poolBreakdownOf ts pools).map fun e => e.transactionCount).sum
      = ((groupAgg ((joinPools ts pools).map fun r =>
            ((r.2.id, r.2.name, r.2.type), r.1.amount))).map
          fun e => e.2.count).sum := by
        simp [poolBreakdownOf, List.map_map, Function.comp_def]
    _ = ((joinPools ts pools).map fun r =>
          ((r.2.id, r.2.name, r.2.type), r.1.amount)).length := groupAgg_sum_count _
    _ = (joinPools ts pools).length := List.length_map _ _

/-- C7: in every monthly report over tables with distinct category ids
and distinct pool ids — the serial primary keys of the schema — the
transaction counts of the categoryBreakdown entries add up to at most the
total transactionCount of the report, and likewise for poolBreakdown. -/
theorem breakdown_counts_le_transactionCount (txs : List Transaction)
    (cats : List Category) (pools : List Pool) (q : GetMonthlyReportQuery)
    (hc : (cats.map Category.id).Nodup) (hp : (pools.map Pool.id).Nodup) :
    ((getMonthlyReport txs cats pools q).categoryBreakdown.map
        fun e => e.transactionCount).sum
      ≤ (getMonthlyReport txs cats pools q).transactionCount
    ∧ ((getMonthlyReport txs cats pools q).poolBreakdown.map
        fun e => e.transactionCount).sum
      ≤ (getMonthlyReport txs cats pools q).transactionCount := by
  rw [getMonthlyReport_categoryBreakdown, getMonthlyReport_poolBreakdown,
    getMonthlyReport_transactionCount]
  constructor
  · rw [categoryBreakdownOf_sum_counts]
    exact joinCategories_length_le _ cats hc
  · rw [poolBreakdownOf_sum_counts]
    exact joinPools_length_le _ pools hp

/-- Witness for C7 at a concrete store and tables. -/
theorem breakdown_counts_le_transactionCount_witness :
    (([wCat1, wCat2].map Category.id).Nodup) ∧ (([wPool1].map Pool.id).Nodup) ∧
      (((getMonthlyReport [wIncome, wExpense, wPayCat] [wCat1, wCat2] [wPool1]
            ⟨1, 2024, 1⟩).categoryBreakdown.map fun e => e.transactionCount).sum
          ≤ (getMonthlyReport [wIncome, wExpense, wPayCat] [wCat1, wCat2] [wPool1]
              ⟨1, 2024, 1⟩).transactionCount
        ∧ ((getMonthlyReport [wIncome, wExpense, wPayCat] [wCat1, wCat2] [wPool1]
            ⟨1, 2024, 1⟩).poolBreakdown.map fun e => e.transactionCount).sum
          ≤ (getMonthlyReport [wIncome, wExpense, wPayCat] [wCat1, wCat2] [wPool1]
              ⟨1, 2024, 1⟩).transactionCount) :=
  ⟨by decide, by decide,
    breakdown_counts_le_transactionCount [wIncome, wExpense, wPayCat]
      [wCat1, wCat2] [wPool1] ⟨1, 2024, 1⟩ (by decide) (by decide)⟩

/-- Folding addTotal over entries accumulates, per bucket, the sum of the
totalAmount of the entries of that type. -/
theorem foldl_addTotal (l : List CategoryReportEntry) (acc : TotalsByType) :
    ((l.foldl addTotal acc).income
        = acc.income + ((l.filter fun e => e.type == .income).map
            fun e => e.totalAmount).sum)
    ∧ ((l.foldl addTotal acc).expense
        = acc.expense + ((l.filter fun e => e.type == .expense).map
            fun e => e.totalAmount).sum)
    ∧ ((l.foldl addTotal acc).credit
        = acc.credit + ((l.filter fun e => e.type == .credit).map
            fun e => e.totalAmount).sum) := by
  induction l generalizing acc with
  | nil => simp
  | cons e l ih =>
      obtain ⟨ih1, ih2, ih3⟩ := ih (addTotal acc e)
      rw [List.foldl_cons] at *
      cases he : e.type <;>
        simp_all [addTotal, List.filter_cons, he] <;> ring_nf

/-- C5: in every category report, each bucket of totalsByType equals the
sum of totalAmount over the categories entries of that type — in
particular it is 0 when no category of the type is present, since the sum
over the empty selection is 0. -/
theorem totalsByType_buckets (txs : List Transaction) (cats : List Category)
    (q : GetCategoryReportQuery) :
    ((getCategoryReport txs cats q).totalsByType.income
        = (((getCategoryReport txs cats q).categories.filter
            fun e => e.type == .income).map fun e => e.totalAmount).sum)
    ∧ ((getCategoryReport txs cats q).totalsByType.expense
        = (((getCategoryReport txs cats q).categories.filter
            fun e => e.type == .expense).map fun e => e.totalAmount).sum)
    ∧ ((getCategoryReport txs cats q).totalsByType.credit
        = (((getCategoryReport txs cats q).categories.filter
            fun e => e.type == .credit).map fun e => e.totalAmount).sum) := by
  obtain ⟨h1, h2, h3⟩ :=
    foldl_addTotal ((getCategoryReport txs cats q).categories) ⟨0, 0, 0⟩
  rw [getCategoryReport_totalsByType]
  refine ⟨?_, ?_, ?_⟩
  · rw [h1]; ring
  · rw [h2]; ring
  · rw [h3]; ring

/-- Characterisation of the monthly-breakdown comparator: it accepts
exactly the pairs that are ascending by year and then by month. -/
theorem monthlyLe_iff (a b : MonthlyBreakdownEntry) :
    monthlyLe a b = true
      ↔ (a.year < b.year ∨ (a.year = b.year ∧ a.month ≤ b.month)) := by
  by_cases h : a.year = b.year
  · simp [monthlyLe, h]
  · simp only [monthlyLe, if_pos (show a.year ≠ b.year from h), decide_eq_true_eq]
    omega

/-- Folding one keyed row into the buckets keeps the key list unchanged
when the key is already present and appends it otherwise. -/
theorem bump_map_fst {κ : Type} [DecidableEq κ] (l : List (κ × Agg)) (k : κ)
    (a : ℚ) :
    (bump l k a).map Prod.fst
      = if k ∈ l.map Prod.fst then l.map Prod.fst
        else l.map Prod.fst ++ [k] := by
  induction l with
  | nil => simp [bump]
  | cons hd tl ih =>
      obtain ⟨k', g⟩ := hd
      by_cases h : k' = k
      · subst h
        simp [bump]
      · have hne : k ≠ k' := fun hh => h hh.symm
        simp only [bump, if_neg h, List.map_cons, ih]
        by_cases hm : k ∈ tl.map Prod.fst
        · simp [hm, hne, List.mem_cons]
        · simp [hm, hne, List.mem_cons, List.cons_append]

/-- Folding one keyed row into the buckets preserves distinctness of the
keys. -/
theorem bump_keys_nodup {κ : Type} [DecidableEq κ] (l : List (κ × Agg)) (k : κ)
    (a : ℚ) (h : (l.map Prod.fst).Nodup) :
    ((bump l k a).map Prod.fst).Nodup := by
  rw [bump_map_fst]
  by_cases hm : k ∈ l.map Prod.fst
  · simpa [hm] using h
  · simp [hm, List.nodup_append, h]

/-- The buckets of a GROUP BY carry pairwise distinct keys. -/
theorem groupAgg_keys_nodup {κ : Type} [DecidableEq κ] (rows : List (κ × ℚ)) :
    ((groupAgg rows).map Prod.fst).Nodup := by
  suffices h : ∀ acc : List (κ × Agg), (acc.map Prod.fst).Nodup →
      (((rows.foldl (fun acc r => bump acc r.1 r.2) acc)).map Prod.fst).Nodup by
    simpa [groupAgg] using h [] (by simp)
  induction rows with
  | nil =>
      intro acc hacc
      simpa using hacc
  | cons r rows ih =>
      intro acc hacc
      rw [List.foldl_cons]
      exact ih _ (bump_keys_nodup _ _ _ hacc)

/-- Two pairwise facts over one list combine into a pairwise conjunction. -/
theorem pairwise_and {α : Type} {R S : α → α → Prop} {l : List α}
    (h1 : l.Pairwise R) (h2 : l.Pairwise S) :
    l.Pairwise fun a b => R a b ∧ S a b := by
  induction l with
  | nil => exact List.Pairwise.nil
  | cons x l ih =>
      rw [List.pairwise_cons] at h1 h2 ⊢
      exact ⟨fun y hy => ⟨h1.1 y hy, h2.1 y hy⟩, ih h1.2 h2.2⟩

/-- Projection of one categories entry: its monthlyBreakdown is the
per-month grouping of its bucket. -/
theorem entryOfGroup_monthlyBreakdown (g : CatGroup) :
    (entryOfGroup g).monthlyBreakdown = monthlyBreakdownOf g.transactions := rfl

/-- The per-month grouping of any transaction list is strictly ascending
by year and then month, with no repeated (year, month) pair. -/
theorem monthlyBreakdownOf_pairwise (txs : List (ℚ × DateTime)) :
    (monthlyBreakdownOf txs).Pairwise
      fun a b => a.year < b.year ∨ (a.year = b.year ∧ a.month < b.month) := by
  letI : IsTotal MonthlyBreakdownEntry (fun a b => monthlyLe a b = true) :=
    ⟨by
      intro a b
      rw [monthlyLe_iff, monthlyLe_iff]
      omega⟩
  letI : IsTrans MonthlyBreakdownEntry (fun a b => monthlyLe a b = true) :=
    ⟨by
      intro a b c hab hbc
      rw [monthlyLe_iff] at hab hbc ⊢
      omega⟩
  unfold monthlyBreakdownOf
  have hsorted := List.sorted_insertionSort (fun a b => monthlyLe a b = true)
    ((groupAgg (txs.map fun p => ((p.2.year, p.2.month), p.1))).map
      fun e => MonthlyBreakdownEntry.mk e.1.1 e.1.2 e.2.totalAmount e.2.count)
  have hperm := List.perm_insertionSort (fun a b => monthlyLe a b = true)
    ((groupAgg (txs.map fun p => ((p.2.year, p.2.month), p.1))).map
      fun e => MonthlyBreakdownEntry.mk e.1.1 e.1.2 e.2.totalAmount e.2.count)
  have hnd := groupAgg_keys_nodup (txs.map fun p => ((p.2.year, p.2.month), p.1))
  have h1 : (groupAgg (txs.map fun p => ((p.2.year, p.2.month), p.1))).Pairwise
      fun g h => g.1 ≠ h.1 := by
    rwa [List.Nodup, List.pairwise_map] at hnd
  have hne : ((groupAgg (txs.map fun p => ((p.2.year, p.2.month), p.1))).map
      fun e => MonthlyBreakdownEntry.mk e.1.1 e.1.2 e.2.totalAmount e.2.count).Pairwise
      fun a b => (a.year, a.month) ≠ (b.year, b.month) := by
    rw [List.pairwise_map]
    refine h1.imp ?_
    intro g h hgh heq
    apply hgh
    calc g.1 = (g.1.1, g.1.2) := Prod.mk.eta.symm
      _ = (h.1.1, h.1.2) := heq
      _ = h.1 := Prod.mk.eta
  have hsymm : ∀ {x y : MonthlyBreakdownEntry},
      (x.year, x.month) ≠ (y.year, y.month)
        → (y.year, y.month) ≠ (x.year, x.month) :=
    fun hab => Ne.symm hab
  have hne_sorted := (List.Perm.pairwise_iff hsymm hperm).mpr hne
  refine (pairwise_and hsorted hne_sorted).imp ?_
  intro a b hab
  obtain ⟨hle, hnp⟩ := hab
  rw [monthlyLe_iff] at hle
  have hcomp : a.year ≠ b.year ∨ a.month ≠ b.month := by
    by_contra hcon
    push_neg at hcon
    exact hnp (by rw [hcon.1, hcon.2])
  omega

/-- C6: in every category report, the monthlyBreakdown of each categories
entry is strictly ordered ascending first by year and then by month; in
particular no two of its entries share a (year, month) pair. -/
theorem monthlyBreakdown_strict_order (txs : List Transaction)
    (cats : List Category) (q : GetCategoryReportQuery)
    (e : CategoryReportEntry)
    (he : e ∈ (getCategoryReport txs cats q).categories) :
    e.monthlyBreakdown.Pairwise
      fun a b => a.year < b.year ∨ (a.year = b.year ∧ a.month < b.month) := by
  rw [getCategoryReport_categories] at he
  obtain ⟨g, hg, rfl⟩ := List.mem_map.mp he
  rw [entryOfGroup_monthlyBreakdown]
  exact monthlyBreakdownOf_pairwise g.transactions

/-- Witness for C6 at a concrete report entry. -/
theorem monthlyBreakdown_strict_order_witness :
    ((⟨1, "Salary", .income, 100, 1, 100, [⟨2024, 1, 100, 1⟩]⟩ : CategoryReportEntry)
        ∈ (getCategoryReport [wIncome] [wCat1] ⟨1, none, none⟩).categories)
      ∧ (⟨1, "Salary", .income, 100, 1, 100,
            [⟨2024, 1, 100, 1⟩]⟩ : CategoryReportEntry).monthlyBreakdown.Pairwise
          (fun a b => a.year < b.year ∨ (a.year = b.year ∧ a.month < b.month)) := by
  have hmem : (⟨1, "Salary", .income, 100, 1, 100,
      [⟨2024, 1, 100, 1⟩]⟩ : CategoryReportEntry)
      ∈ (getCategoryReport [wIncome] [wCat1] ⟨1, none, none⟩).categories := by
    norm_num [getCategoryReport, matchesCategoryFilter, wIncome, wCat1, wDate,
      joinCategories, groupByCategory, pushRow, entryOfGroup, monthlyBreakdownOf,
      groupAgg, bump, DateTime.dle]
  exact ⟨hmem,
    monthlyBreakdown_strict_order [wIncome] [wCat1] ⟨1, none, none⟩
      ⟨1, "Salary", .income, 100, 1, 100, [⟨2024, 1, 100, 1⟩]⟩ hmem⟩

/-- C9: the category breakdown of the monthly report filters only through
the inner join on a non-null category id and never inspects the
transaction type: a payment-type transaction carrying a category id is
counted in categoryBreakdown with its amount under that category,
whereas getCategoryReport excludes the very same store entirely. -/
theorem payment_counted_in_monthly_categoryBreakdown (t : Transaction)
    (c : Category) (pools : List Pool) (uid year month : Int)
    (hty : t.type = .payment) (hcid : t.category_id = some c.id)
    (hwin : matchesMonthWindow uid year month t = true) :
    (getMonthlyReport [t] [c] pools ⟨uid, year, month⟩).categoryBreakdown
        = [⟨c.id, c.name, c.type, t.amount, 1⟩]
      ∧ (getCategoryReport [t] [c] ⟨uid, none, none⟩).categories = [] := by
  constructor
  · rw [getMonthlyReport_categoryBreakdown]
    have hf : [t].filter (matchesMonthWindow uid year month) = [t] := by
      simp [hwin]
    rw [hf]
    simp [categoryBreakdownOf, joinCategories, hcid, groupAgg, bump]
  · rw [getCategoryReport_categories]
    have e1 : (TxType.payment == TxType.income) = false := rfl
    have e2 : (TxType.payment == TxType.expense) = false := rfl
    have e3 : (TxType.payment == TxType.credit) = false := rfl
    have hft : matchesCategoryFilter ⟨uid, none, none⟩ t = false := by
      simp [matchesCategoryFilter, hty, e1, e2, e3]
    simp [hft, joinCategories, groupByCategory]

/-- Witness for C9 at a concrete payment transaction with an attached
category. -/
theorem payment_counted_in_monthly_categoryBreakdown_witness :
    Transaction.type wPayCat = .payment
      ∧ Transaction.category_id wPayCat = some (Category.id wCat1)
      ∧ matchesMonthWindow 1 2024 1 wPayCat = true
      ∧ ((getMonthlyReport [wPayCat] [wCat1] [] ⟨1, 2024, 1⟩).categoryBreakdown
            = [⟨Category.id wCat1, Category.name wCat1, Category.type wCat1,
                Transaction.amount wPayCat, 1⟩]
          ∧ (getCategoryReport [wPayCat] [wCat1] ⟨1, none, none⟩).categories = []) :=
  ⟨rfl, rfl, by decide,
    payment_counted_in_monthly_categoryBreakdown wPayCat wCat1 [] 1 2024 1
      rfl rfl (by decide)⟩

end ExpenseTracker
